import Mathlib

/-!
Shallow embedding of `src/mcp-server.js` (william_store_mcp): the
open-data query-and-render pipeline exposed as the `queryOpenDatabase`
MCP tool.  JavaScript runtime values appearing in the pipeline are
modelled by the inductive `JsVal`; numbers are modelled as integers
(`Int`) plus explicit NaN / Infinity markers — non-integral doubles do
not occur in the claims under verification and are outside the model.
The single outbound HTTP call is modelled by an explicit
`HttpOutcome` argument; thrown JS exceptions are modelled by
`Except String`.
-/

namespace WBStore

/-- Model of the JavaScript runtime values flowing through the pipeline:
strings, finite integer numbers, NaN, ±Infinity, booleans, null,
undefined, arrays and (string-keyed) objects. -/
inductive JsVal where
  | vStr (s : String)
  | vNum (n : Int)
  | vNaN
  | vInf (pos : Bool)
  | vBool (b : Bool)
  | vNull
  | vUndefined
  | vArr (elems : List JsVal)
  | vObj (fields : List (String × JsVal))

/-- JS nullish test: `value === null || value === undefined`. -/
def nullish : JsVal → Bool
  | .vNull => true
  | .vUndefined => true
  | _ => false

/-- JS nullish coalescing `v ?? d`. -/
def coalesce (v d : JsVal) : JsVal :=
  if nullish v then d else v

/-- JS truthiness (as used by `item && ...`). -/
def truthy : JsVal → Bool
  | .vNull => false
  | .vUndefined => false
  | .vNaN => false
  | .vBool b => b
  | .vNum n => n != 0
  | .vStr s => !s.isEmpty
  | .vInf _ => true
  | .vArr _ => true
  | .vObj _ => true

/-- Strict test `value === null`. -/
def isNullVal : JsVal → Bool
  | .vNull => true
  | _ => false

/-- JS `Array.isArray(v)`. -/
def isJsArray : JsVal → Bool
  | .vArr _ => true
  | _ => false

/-- JS property access `v[key]` on the values reached by the pipeline:
objects yield the field (or undefined when absent; parsed JSON keeps the
last duplicate key, so the field list is already deduplicated), every
non-object yields undefined.  The pipeline only dereferences values it
has guarded against null/undefined. -/
def getField (v : JsVal) (key : String) : JsVal :=
  match v with
  | .vObj fields =>
    match fields.find? (fun f => f.1 == key) with
    | some f => f.2
    | none => .vUndefined
  | _ => .vUndefined

/-- JS optional chain `v[k1]?.[k2]` (as in `item.country?.value`). -/
def optChainField (v : JsVal) (k1 k2 : String) : JsVal :=
  let c := getField v k1
  if nullish c then .vUndefined else getField c k2

mutual

/-- JS `String(value)` / template-literal conversion for the modelled
values.  Arrays stringify as their elements joined by commas (with
null/undefined elements as empty), objects as "[object Object]". -/
def jsToString : JsVal → String
  | .vStr s => s
  | .vNum n => toString n
  | .vNaN => "NaN"
  | .vInf pos => if pos then "Infinity" else "-Infinity"
  | .vBool b => if b then "true" else "false"
  | .vNull => "null"
  | .vUndefined => "undefined"
  | .vArr elems => jsToStringElems elems
  | .vObj _ => "[object Object]"

/-- JS `Array.prototype.join(",")` on stringified elements. -/
def jsToStringElems : List JsVal → String
  | [] => ""
  | [x] =>
    match x with
    | .vNull => ""
    | .vUndefined => ""
    | _ => jsToString x
  | x :: y :: rest =>
    (match x with
     | .vNull => ""
     | .vUndefined => ""
     | _ => jsToString x) ++ "," ++ jsToStringElems (y :: rest)

end

/-- Core of `String.prototype.replaceAll` for a non-empty plain-string
pattern `p :: ps`: scan left to right, replacing each (non-overlapping)
occurrence of the pattern by `repl`.  The extra fuel argument (each
step consumes at least one input character, so any fuel of at least the
input length never runs out) keeps the recursion structural. -/
def replaceAllCore (p : Char) (ps repl : List Char) : Nat → List Char → List Char
  | 0, l => l
  | _ + 1, [] => []
  | fuel + 1, c :: rest =>
    if c == p && ps.isPrefixOf rest then
      repl ++ replaceAllCore p ps repl fuel (rest.drop ps.length)
    else
      c :: replaceAllCore p ps repl fuel rest

/-- JS `s.replaceAll(pat, repl)` for plain string patterns.  Every call
site in the source uses a non-empty pattern; an empty pattern returns
the string unchanged (that case is never exercised). -/
def jsReplaceAll (s pat repl : String) : String :=
  match pat.data with
  | [] => s
  | p :: ps => ⟨replaceAllCore p ps repl.data s.data.length s.data⟩

/-- Source function `escapeMarkdownCell` (mcp-server.js line 4):
`String(value).replaceAll("|", "\\|")`. -/
def escapeMarkdownCell (value : JsVal) : String :=
  jsReplaceAll (jsToString value) "|" "\\|"

/-- Source function `escapeHtml` (mcp-server.js line 8): `String(value)` followed by
the five chained `replaceAll` entity substitutions, in source order. -/
def escapeHtml (value : JsVal) : String :=
  jsReplaceAll
    (jsReplaceAll
      (jsReplaceAll
        (jsReplaceAll
          (jsReplaceAll (jsToString value) "&" "&amp;")
          "<" "&lt;")
        ">" "&gt;")
      "\"" "&quot;")
    "'" "&#39;"

/-- Split a digit list (least-significant first) into groups of three. -/
def chunk3 : List Char → List (List Char)
  | [] => []
  | [a] => [[a]]
  | [a, b] => [[a, b]]
  | a :: b :: c :: rest => [a, b, c] :: chunk3 rest

/-- Integer formatting of `new Intl.NumberFormat("en-US").format`:
decimal digits grouped in threes with "," separators (the only numbers
reaching it in the pipeline are integers). -/
def formatEnUS (n : Int) : String :=
  let digits := (Nat.repr n.natAbs).data
  let grouped := List.intercalate [','] ((chunk3 digits.reverse).map List.reverse).reverse
  (if n < 0 then "-" else "") ++ ⟨grouped⟩

/-- Source function `formatNumber` (mcp-server.js line 17): finite numbers are
locale-formatted; otherwise `value ?? ""` (so null/undefined become the
empty string and everything else — including NaN/Infinity — passes
through unchanged). -/
def formatNumber (value : JsVal) : JsVal :=
  match value with
  | .vNum n => .vStr (formatEnUS n)
  | _ => coalesce value (.vStr "")

/-- A column descriptor `{ key, label, align }`. -/
structure Column where
  key : String
  label : String
  align : String

/-- A rendered table row: a JS object keyed by column key. -/
abbrev TableRow := List (String × JsVal)

/-- JS property access `row[key]` on a table row. -/
def rowGet (row : TableRow) (key : String) : JsVal :=
  match row.find? (fun f => f.1 == key) with
  | some f => f.2
  | none => .vUndefined

/-- Source function `buildMarkdownTable` (mcp-server.js line 25). -/
def buildMarkdownTable (columns : List Column) (rows : List TableRow) : String :=
  let header :=
    "| " ++ String.intercalate " | "
      (columns.map (fun column => escapeMarkdownCell (.vStr column.label))) ++ " |"
  let divider :=
    "| " ++ String.intercalate " | "
      (columns.map (fun column => if column.align == "right" then "---:" else "---")) ++ " |"
  let body := rows.map (fun row =>
    "| " ++ String.intercalate " | "
      (columns.map (fun column =>
        escapeMarkdownCell (coalesce (rowGet row column.key) (.vStr "")))) ++ " |")
  String.intercalate "\n" (header :: divider :: body)

/-- The `th` style constant of `buildHtmlTable`. -/
def thStyle : String :=
  "padding:10px 12px;border:2px solid #333;background:#4A90E2;color:white;text-align:left;font-weight:bold;"

/-- The base `td` style constant of `buildHtmlTable`. -/
def tdBaseStyle : String := "padding:10px 12px;border:1px solid #666;"

/-- Source function `buildHtmlTable` (mcp-server.js line 38): fixed-template HTML table
with every label and cell passed through `escapeHtml`; body rows are
zebra-striped by index parity. -/
def buildHtmlTable (columns : List Column) (rows : List TableRow) : String :=
  let headerRow := String.join (columns.map (fun column =>
    "<th style=\"" ++ thStyle ++ "\">" ++ escapeHtml (.vStr column.label) ++ "</th>"))
  let bodyRows := String.join ((rows.enum).map (fun p =>
    let bgColor := if p.1 % 2 == 0 then "background:#f9f9f9;" else "background:#ffffff;"
    let cells := String.join (columns.map (fun column =>
      let align := if column.align == "right" then "text-align:right;" else "text-align:left;"
      "<td style=\"" ++ tdBaseStyle ++ align ++ "\">" ++
        escapeHtml (coalesce (rowGet p.2 column.key) (.vStr "")) ++ "</td>"))
    "<tr style=\"" ++ bgColor ++ "\">" ++ cells ++ "</tr>"))
  String.join
    ["<table style=\"border-collapse:collapse;width:100%;font-family:Arial,sans-serif;font-size:14px;border:2px solid #333;\">",
     "<thead><tr>" ++ headerRow ++ "</tr></thead>",
     "<tbody>" ++ bodyRows ++ "</tbody>",
     "</table>"]

/-- Source function `stripMarkdownBold` (mcp-server.js line 66):
`String(text).replaceAll("**", "")`. -/
def stripMarkdownBold (text : String) : String :=
  jsReplaceAll text "**" ""

/-- A JS number as produced by `Number(...)`: NaN, ±Infinity, or a
finite (integer-modelled) value. -/
inductive JsNum where
  | nan
  | inf (pos : Bool)
  | fin (n : Int)
deriving DecidableEq

/-- The whitespace characters trimmed by JS string-to-number
conversion (the ASCII ones plus NBSP; other Unicode spaces do not occur
in the modelled data). -/
def isJsSpace (c : Char) : Bool :=
  c == ' ' || c == '\t' || c == '\n' || c == '\x0d' || c == '\x0b' || c == '\x0c' || c == '\u00A0'

/-- Parse a non-empty all-digit character list as a natural number. -/
def parseDigits : List Char → Option Nat
  | [] => none
  | l => if l.all Char.isDigit then some (l.foldl (fun acc c => acc * 10 + (c.toNat - 48)) 0) else none

/-- JS `Number(string)` (ECMA StringToNumber) restricted to the shapes
the model needs: trimmed empty string is 0; optional sign followed by
"Infinity" or by decimal digits; every other shape (including the
fractional, exponent and radix-prefixed literals, which never occur in
the modelled data) is NaN. -/
def strToNumber (s : String) : JsNum :=
  let t := ((s.data.dropWhile isJsSpace).reverse.dropWhile isJsSpace).reverse
  match t with
  | [] => .fin 0
  | c :: rest =>
    let signed : Bool → List Char → JsNum := fun neg body =>
      if body == "Infinity".data then .inf (!neg)
      else
        match parseDigits body with
        | some n => .fin (if neg then -(n : Int) else (n : Int))
        | none => .nan
    if c == '+' then signed false rest
    else if c == '-' then signed true rest
    else signed false (c :: rest)

/-- JS `Number(value)` (ToNumber) on the modelled values.  Arrays and
objects convert via their string form (ToPrimitive). -/
def toNumber : JsVal → JsNum
  | .vNum n => .fin n
  | .vNaN => .nan
  | .vInf pos => .inf pos
  | .vNull => .fin 0
  | .vUndefined => .nan
  | .vBool b => .fin (if b then 1 else 0)
  | .vStr s => strToNumber s
  | .vArr elems => strToNumber (jsToStringElems elems)
  | .vObj _ => .nan

/-- JS subtraction on numbers (as in the sort comparator). -/
def jsSub : JsNum → JsNum → JsNum
  | .nan, _ => .nan
  | _, .nan => .nan
  | .inf p, .inf q => if p == q then .nan else .inf p
  | .inf p, .fin _ => .inf p
  | .fin _, .inf q => .inf (!q)
  | .fin a, .fin b => .fin (a - b)

/-- The value ECMAScript SortCompare derives from a comparator result:
NaN counts as 0, otherwise only the sign matters. -/
def sortCompareValue : JsNum → Int
  | .nan => 0
  | .inf true => 1
  | .inf false => -1
  | .fin n => n

/-- One normalized World Bank row (the object literal built at
mcp-server.js line 98). -/
structure WBRow where
  year : JsVal
  value : JsVal
  country : JsVal
  indicator : JsVal

/-- The sort comparator of mcp-server.js line 177:
`(a, b) => Number(b.year) - Number(a.year)`, filtered through
SortCompare. -/
def rowCompare (a b : WBRow) : Int :=
  sortCompareValue (jsSub (toNumber b.year) (toNumber a.year))

/-- Stable insertion: place `x` before the first `y` with
`c x y ≤ 0`.  Combined with `insertionSortBy` this is a stable sort, so
it agrees with `Array.prototype.sort` whenever the comparator is
consistent (ES2019 sort is required to be stable; for inconsistent
comparators the ECMAScript order is implementation-defined and this is
one valid implementation). -/
def stableInsert (c : α → α → Int) (x : α) : List α → List α
  | [] => [x]
  | y :: ys => if c x y ≤ 0 then x :: y :: ys else y :: stableInsert c x ys

/-- Stable sort by a JS comparator (model of `[...rows].sort(cmp)`). -/
def insertionSortBy (c : α → α → Int) (l : List α) : List α :=
  l.foldr (stableInsert c) []

/-- Characters left unescaped by `encodeURIComponent`. -/
def uriUnreserved (c : Char) : Bool :=
  (('A' ≤ c && c ≤ 'Z') || ('a' ≤ c && c ≤ 'z') || ('0' ≤ c && c ≤ '9')) ||
  (c == '-' || c == '_' || c == '.' || c == '!' || c == '~' || c == '*' || c == '\'' || c == '(' || c == ')')

/-- Upper-case hex digit for a value below 16. -/
def hexDigitChar (n : Nat) : Char :=
  if n < 10 then Char.ofNat (48 + n) else Char.ofNat (55 + n)

/-- UTF-8 bytes of a character (scalar values only — Lean `Char`
has no lone surrogates, matching `encodeURIComponent`'s domain of
well-formed strings). -/
def utf8Bytes (c : Char) : List Nat :=
  let n := c.toNat
  if n < 128 then [n]
  else if n < 2048 then [192 + n / 64, 128 + n % 64]
  else if n < 65536 then [224 + n / 4096, 128 + n / 64 % 64, 128 + n % 64]
  else [240 + n / 262144, 128 + n / 4096 % 64, 128 + n / 64 % 64, 128 + n % 64]

/-- JS `encodeURIComponent`: unreserved characters pass through, every
other character is percent-encoded byte-wise in upper-case hex. -/
def encodeURIComponent (s : String) : String :=
  ⟨s.data.flatMap (fun c =>
    if uriUnreserved c then [c]
    else (utf8Bytes c).flatMap (fun b => ['%', hexDigitChar (b / 16), hexDigitChar (b % 16)]))⟩

/-- The parameters destructured by `fetchWorldBankIndicator` and the
`queryOpenDatabase` handler (after zod validation supplies defaults). -/
structure QueryParams where
  countryCode : String
  indicatorCode : String
  startYear : Int
  endYear : Int
  limit : Int

/-- The clamp `Math.max(1, Math.min(limit, 20))` (mcp-server.js line 77). -/
def clampLimit (limit : Int) : Int :=
  max 1 (min limit 20)

/-- The observable outcome of the single outbound `fetch`: either the
fetch promise rejects (network failure) with an error message, or a
response arrives with a status code whose body either parses as JSON or
fails to parse with an error message. -/
inductive HttpOutcome where
  | netError (msg : String)
  | resp (status : Nat) (body : Except String JsVal)

/-- Fetch `Response.ok`: status in the range 200–299. -/
def httpOk (status : Nat) : Bool :=
  200 ≤ status && status < 300

/-- The endpoint URL built at mcp-server.js line 78. -/
def wbEndpoint (p : QueryParams) (requestedLimit : Int) : String :=
  "https://api.worldbank.org/v2/country/" ++ encodeURIComponent p.countryCode ++
  "/indicator/" ++ encodeURIComponent p.indicatorCode ++
  "?format=json&date=" ++ toString p.startYear ++ ":" ++ toString p.endYear ++
  "&per_page=" ++ toString requestedLimit

/-- The envelope selection of mcp-server.js line 94:
`Array.isArray(payload) && Array.isArray(payload[1]) ? payload[1] : []`. -/
def wbEntries (payload : JsVal) : List JsVal :=
  match payload with
  | .vArr elems =>
    match elems.get? 1 with
    | some (.vArr entries) => entries
    | _ => []
  | _ => []

/-- The projection of one kept observation (mcp-server.js line 98). -/
def wbProject (countryCode indicatorCode : String) (item : JsVal) : WBRow :=
  { year := getField item "date"
    value := getField item "value"
    country := coalesce (optChainField item "country" "value") (.vStr countryCode)
    indicator := coalesce (optChainField item "indicator" "value") (.vStr indicatorCode) }

/-- Row normalization (mcp-server.js lines 94–103): select the
envelope's second element when it is an array, keep truthy observations
whose `value` is not null, truncate to the clamped limit, project. -/
def normalizeRows (countryCode indicatorCode : String) (requestedLimit : Int)
    (payload : JsVal) : List WBRow :=
  (((wbEntries payload).filter
      (fun item => truthy item && !isNullVal (getField item "value"))).take
    requestedLimit.toNat).map (wbProject countryCode indicatorCode)

/-- The result object of `fetchWorldBankIndicator`. -/
structure FetchResult where
  source : String
  endpoint : String
  rows : List WBRow

/-- Source function `fetchWorldBankIndicator` (mcp-server.js line 70), with the outcome
of the one outbound `fetch` passed explicitly; a thrown `Error` is
modelled as `Except.error` carrying its message. -/
def fetchWorldBankIndicator (p : QueryParams) (o : HttpOutcome) :
    Except String FetchResult :=
  let requestedLimit := clampLimit p.limit
  let endpoint := wbEndpoint p requestedLimit
  match o with
  | .netError msg => .error msg
  | .resp status body =>
    if !httpOk status then
      .error ("World Bank API request failed: " ++ toString status)
    else
      match body with
      | .error msg => .error msg
      | .ok payload =>
        .ok { source := "World Bank Open Data API"
              endpoint := endpoint
              rows := normalizeRows p.countryCode p.indicatorCode requestedLimit payload }

/-- The table row built from a normalized row (mcp-server.js line 178):
only `Value` is passed through `formatNumber`. -/
def tableRowOf (r : WBRow) : TableRow :=
  [("Year", r.year), ("Value", formatNumber r.value),
   ("Country", r.country), ("Indicator", r.indicator)]

/-- The mapping `sortedRows.map` building table rows (mcp-server.js line 178). -/
def tableRowsOf (rows : List WBRow) : List TableRow :=
  rows.map tableRowOf

/-- The fixed column list of mcp-server.js line 184. -/
def queryColumns : List Column :=
  [⟨"Year", "Year", "left"⟩, ⟨"Value", "Value", "right"⟩,
   ⟨"Country", "Country", "left"⟩, ⟨"Indicator", "Indicator", "left"⟩]

/-- The years list `sortedRows.map(row => Number(row.year)).filter(Number.isFinite)`
(mcp-server.js line 192), keeping the finite values as integers. -/
def finiteYearsOf (sortedRows : List WBRow) : List Int :=
  sortedRows.filterMap (fun r =>
    match toNumber r.year with
    | .fin n => some n
    | _ => none)

/-- The title computation of mcp-server.js lines 192–198 (a named form
of the handler's local `title`): min/max of the finite years with
fallback to the requested range, label fallback to the requested codes
when no row exists. -/
def queryTitle (p : QueryParams) (sortedRows : List WBRow) : String :=
  let tableRows := tableRowsOf sortedRows
  let years := finiteYearsOf sortedRows
  let minYear := match years with | [] => p.startYear | y :: ys => ys.foldl min y
  let maxYear := match years with | [] => p.endYear | y :: ys => ys.foldl max y
  match tableRows with
  | [] =>
    "**" ++ p.countryCode ++ " - " ++ p.indicatorCode ++
    " (" ++ toString p.startYear ++ "-" ++ toString p.endYear ++ ")**"
  | row0 :: _ =>
    "**" ++ jsToString (rowGet row0 "Country") ++ " - " ++
    jsToString (rowGet row0 "Indicator") ++
    " (" ++ toString minYear ++ "-" ++ toString maxYear ++ ")**"

/-- The `widget` object of the structured content. -/
structure Widget where
  type : String
  title : String
  columns : List Column
  rows : List TableRow

/-- The success response of the handler: the text block plus the
`structuredContent` fields. -/
structure SuccessPayload where
  text : String
  source : String
  endpoint : String
  columns : List String
  rows : List TableRow
  rawRows : List WBRow
  markdownTable : String
  htmlTable : String
  widgetType : String
  widget : Widget

/-- A tool invocation result: either an `isError: true` response with
its text, or a success response. -/
inductive ToolResult where
  | errorResult (text : String)
  | success (payload : SuccessPayload)

/-- The success response assembled by the handler (mcp-server.js lines
177–238) from the validated parameters and the fetch result. -/
def querySuccessPayload (p : QueryParams) (result : FetchResult) : SuccessPayload :=
  let sortedRows := insertionSortBy rowCompare result.rows
  let tableRows := tableRowsOf sortedRows
  let columns := queryColumns
  let markdownTable := buildMarkdownTable columns tableRows
  let htmlTable := buildHtmlTable columns tableRows
  let title := queryTitle p sortedRows
  { text := String.intercalate "\n"
      ["Summary: " ++ toString tableRows.length ++ " row(s) returned.",
       "Data source: " ++ result.source,
       "Endpoint: " ++ result.endpoint,
       "",
       title,
       "",
       markdownTable,
       "",
       "HTML table:",
       htmlTable]
    source := result.source
    endpoint := result.endpoint
    columns := columns.map (fun column => column.label)
    rows := tableRows
    rawRows := sortedRows
    markdownTable := markdownTable
    htmlTable := htmlTable
    widgetType := "table"
    widget :=
      { type := "table"
        title := stripMarkdownBold title
        columns := columns
        rows := tableRows } }

/-- The `queryOpenDatabase` handler (mcp-server.js lines 156–250) with
the fetch outcome passed explicitly.  The second component records
whether the outbound request was performed (the validation early-return
never reaches the fetch).  The surrounding try/catch turns any thrown
message into the "Failed to query open database: " error result. -/
def queryOpenDatabase (p : QueryParams) (o : HttpOutcome) : ToolResult × Bool :=
  if p.startYear > p.endYear then
    (.errorResult "Invalid range: startYear must be less than or equal to endYear.", false)
  else
    match fetchWorldBankIndicator p o with
    | .error msg => (.errorResult ("Failed to query open database: " ++ msg), true)
    | .ok result => (.success (querySuccessPayload p result), true)

/-- The `limit` leg of the tool's zod schema
(`z.number().int().min(1).max(20)`, mcp-server.js lines 149–154);
the integrality constraint is carried by the `Int` type. -/
def limitSchemaValid (limit : Int) : Bool :=
  1 ≤ limit && limit ≤ 20

/-- The tool's full zod argument schema (mcp-server.js lines 122–155):
3-character country code, indicator of length at least 3, both years in
[1960, 2100], limit in [1, 20].  (The `databaseId` literal field is
fixed and not carried by `QueryParams`.) -/
def paramsSchemaValid (p : QueryParams) : Bool :=
  p.countryCode.length == 3 && 3 ≤ p.indicatorCode.length &&
  (1960 ≤ p.startYear && p.startYear ≤ 2100) &&
  (1960 ≤ p.endYear && p.endYear ≤ 2100) &&
  limitSchemaValid p.limit

/-- Modelled from the spec: the Tool Registry ("external collaborator"
exposing the orchestrator as a "named, schema-validated callable",
spec §2/§9) validates the arguments against the declared zod schema
before invoking the handler; a call whose arguments fail the schema is
rejected (`none`) and the handler never runs.  The schema itself is in
src (mcp-server.js lines 122–155); only its enforcement lives in the
MCP SDK outside this repository. -/
def queryOpenDatabaseTool (p : QueryParams) (o : HttpOutcome) :
    Option (ToolResult × Bool) :=
  if paramsSchemaValid p then some (queryOpenDatabase p o) else none

/-- Whether a tool result is a success response. -/
def ToolResult.isSuccess : ToolResult → Bool
  | .success _ => true
  | .errorResult _ => false

/-- The `rawRows` of a success response (empty for error results). -/
def ToolResult.rawRowsOf : ToolResult → List WBRow
  | .success payload => payload.rawRows
  | .errorResult _ => []

/-- JS `x >= y` on numbers: false whenever either side is NaN. -/
def JsNum.jsGE : JsNum → JsNum → Bool
  | .nan, _ => false
  | _, .nan => false
  | .inf true, _ => true
  | _, .inf true => false
  | _, .inf false => true
  | .inf false, .fin _ => false
  | .fin a, .fin b => b ≤ a

/-- Whether a row's year converts to a finite number. -/
def finiteYear (r : WBRow) : Bool :=
  match toNumber r.year with
  | .fin _ => true
  | _ => false

/-- Adjacent-pair check that the numeric years are non-increasing
(JS `>=` semantics, so a NaN year fails the check). -/
def yearsNonIncreasing : List WBRow → Bool
  | a :: b :: rest => (toNumber a.year).jsGE (toNumber b.year) && yearsNonIncreasing (b :: rest)
  | _ => true

/-- JS array index `v[i]` (used to phrase "second element"). -/
def arrayIndex (v : JsVal) (i : Nat) : JsVal :=
  match v with
  | .vArr elems => (elems.get? i).getD .vUndefined
  | _ => .vUndefined

/-- The `widget.title` of a success response (empty for error results). -/
def ToolResult.widgetTitleOf : ToolResult → String
  | .success payload => payload.widget.title
  | .errorResult _ => ""

/-- The `rows` of a success response (empty for error results). -/
def ToolResult.rowsOf : ToolResult → List TableRow
  | .success payload => payload.rows
  | .errorResult _ => []

/-- The payload of a success result (a dummy payload carrying the
message for error results). -/
def successPayloadOf (t : ToolResult) : SuccessPayload :=
  match t with
  | .success s => s
  | .errorResult msg => ⟨msg, "", "", [], [], [], "", "", "", ⟨"", "", [], []⟩⟩

/- ------------------------------------------------------------------
Reference definitions written from the spec's words, to be compared
with the definitions embedded from the source (refinement claims).
------------------------------------------------------------------ -/

/-- Reference row normalization, following C4's words: a payload that
is not an array, or whose second element is not an array, yields the
empty sequence; otherwise keep in order the truthy observations whose
`value` is not null, truncate to the first clamped-limit of them, and
project date/value/country-label/indicator-label with fallback to the
requested codes. -/
def normalizeRowsRef (countryCode indicatorCode : String) (requestedLimit : Int)
    (payload : JsVal) : List WBRow :=
  match payload with
  | .vArr (_ :: .vArr entries :: _) =>
    (((entries.filter
        (fun item => truthy item && !isNullVal (getField item "value"))).take
      requestedLimit.toNat).map (fun item =>
        { year := getField item "date"
          value := getField item "value"
          country := coalesce (optChainField item "country" "value") (.vStr countryCode)
          indicator := coalesce (optChainField item "indicator" "value") (.vStr indicatorCode) }))
  | _ => []

/-- Per-character Markdown cell escaping, following C5's words: each
`|` becomes `\\|`, every other character is kept. -/
def mdEscapeChar (c : Char) : List Char :=
  if c == '|' then ['\\', '|'] else [c]

/-- Reference Markdown escaping of a display string. -/
def mdEscapeRef (s : String) : String :=
  ⟨s.data.flatMap mdEscapeChar⟩

/-- A Markdown table line assembled from its cell texts. -/
def mdLine (cells : List String) : String :=
  "| " ++ String.intercalate " | " cells ++ " |"

/-- Reference header line: the escaped column labels. -/
def mdHeaderLineRef (columns : List Column) : String :=
  mdLine (columns.map (fun column => mdEscapeRef column.label))

/-- Reference divider line: `---` for left-aligned columns, `---:` for
right-aligned ones. -/
def mdDividerLineRef (columns : List Column) : String :=
  mdLine (columns.map (fun column => if column.align == "right" then "---:" else "---"))

/-- Reference cell text: a missing (or nullish) cell value renders as
the empty string, any other value as its escaped display string. -/
def mdCellRef (row : TableRow) (key : String) : String :=
  if nullish (rowGet row key) then "" else mdEscapeRef (jsToString (rowGet row key))

/-- Reference row line: the escaped cells of one record. -/
def mdRowLineRef (columns : List Column) (row : TableRow) : String :=
  mdLine (columns.map (fun column => mdCellRef row column.key))

/-- Reference Markdown table: header line, divider line, then one line
per input row in order, joined by newlines. -/
def markdownTableRef (columns : List Column) (rows : List TableRow) : String :=
  String.intercalate "\n"
    (mdHeaderLineRef columns :: mdDividerLineRef columns :: rows.map (mdRowLineRef columns))

/-- Per-character HTML escaping, following C6's words: ampersand,
angle brackets and both quote characters become their entities, every
other character is kept. -/
def escCharHtml (c : Char) : List Char :=
  if c == '&' then "&amp;".data
  else if c == '<' then "&lt;".data
  else if c == '>' then "&gt;".data
  else if c == '"' then "&quot;".data
  else if c == '\'' then "&#39;".data
  else [c]

/-- Reference HTML escaping of a value's display string. -/
def escapeHtmlRef (value : JsVal) : String :=
  ⟨(jsToString value).data.flatMap escCharHtml⟩

/-- Reference HTML header cell. -/
def htmlHeaderCellRef (column : Column) : String :=
  "<th style=\"" ++ thStyle ++ "\">" ++ escapeHtmlRef (.vStr column.label) ++ "</th>"

/-- Reference HTML body cell: the escaped cell value (missing values
as empty string) with the alignment style of its column. -/
def htmlCellRef (row : TableRow) (column : Column) : String :=
  "<td style=\"" ++ tdBaseStyle ++
    (if column.align == "right" then "text-align:right;" else "text-align:left;") ++
  "\">" ++ escapeHtmlRef (coalesce (rowGet row column.key) (.vStr "")) ++ "</td>"

/-- Reference HTML body row with zebra stripe by index parity. -/
def htmlRowRef (columns : List Column) (index : Nat) (row : TableRow) : String :=
  "<tr style=\"" ++ (if index % 2 == 0 then "background:#f9f9f9;" else "background:#ffffff;") ++
  "\">" ++ String.join (columns.map (fun column => htmlCellRef row column)) ++ "</tr>"

/-- Reference HTML table: the fixed template with every label and cell
inserted only through `escapeHtmlRef`. -/
def htmlTableRef (columns : List Column) (rows : List TableRow) : String :=
  String.join
    ["<table style=\"border-collapse:collapse;width:100%;font-family:Arial,sans-serif;font-size:14px;border:2px solid #333;\">",
     "<thead><tr>" ++ String.join (columns.map htmlHeaderCellRef) ++ "</tr></thead>",
     "<tbody>" ++ String.join ((rows.enum).map (fun p => htmlRowRef columns p.1 p.2)) ++ "</tbody>",
     "</table>"]

/- ------------------------------------------------------------------
Concrete inputs used by the example conjuncts, counterexamples and
witnesses.
------------------------------------------------------------------ -/

/-- A mock World Bank observation with the given date and value. -/
def mockObs (d : String) (v : JsVal) : JsVal :=
  .vObj [("indicator", .vObj [("id", .vStr "SP.POP.TOTL"), ("value", .vStr "Population, total")]),
         ("country", .vObj [("id", .vStr "CA"), ("value", .vStr "Canada")]),
         ("date", .vStr d), ("value", v)]

/-- The mock upstream payload of C4/spec §8: observations dated 2020
(value 100), 2019 (value null), 2018 (value 50). -/
def mockPayload : JsVal :=
  .vArr [.vObj [("page", .vNum 1)],
         .vArr [mockObs "2020" (.vNum 100), mockObs "2019" .vNull, mockObs "2018" (.vNum 50)]]

/-- Default-like parameters: CAN / SP.POP.TOTL / 2018–2024 / limit 10. -/
def defaultParams : QueryParams := ⟨"CAN", "SP.POP.TOTL", 2018, 2024, 10⟩

/-- A payload whose kept observations have years "abc" (NaN) then
"2020": the sort comparator returns 0 against a NaN year, so the
stable sort keeps this order. -/
def nanYearPayload : JsVal :=
  .vArr [.vObj [("page", .vNum 1)],
         .vArr [mockObs "abc" (.vNum 1), mockObs "2020" (.vNum 2)]]

/-- A payload with two kept observations in ascending year order. -/
def ascendingPayload : JsVal :=
  .vArr [.vObj [("page", .vNum 1)],
         .vArr [mockObs "2018" (.vNum 50), mockObs "2020" (.vNum 100)]]

/-- A payload with one kept observation whose year is not numeric. -/
def noFiniteYearPayload : JsVal :=
  .vArr [.vObj [("page", .vNum 1)],
         .vArr [mockObs "n/a" (.vNum 7)]]

/- ------------------------------------------------------------------
Helper lemmas.
------------------------------------------------------------------ -/

/-- A `replaceAll` with a single-character pattern acts independently on
each character (whenever the fuel covers the input). -/
theorem replaceAllCore_single (p : Char) (repl : List Char) :
    ∀ (fuel : Nat) (l : List Char), l.length ≤ fuel →
      replaceAllCore p [] repl fuel l = l.flatMap (fun c => if c == p then repl else [c])
  | 0, [], _ => rfl
  | 0, _ :: _, h => by simp at h
  | _ + 1, [], _ => rfl
  | fuel + 1, c :: rest, h => by
    have hrest : rest.length ≤ fuel := by
      simp only [List.length_cons] at h
      omega
    rw [replaceAllCore]
    by_cases hc : c == p
    · simp only [hc, Bool.true_and, List.isPrefixOf, if_pos, List.length_nil, List.drop_zero,
        List.flatMap_cons, replaceAllCore_single p repl fuel rest hrest]
    · simp only [hc, Bool.false_and, if_neg, List.flatMap_cons, Bool.false_eq_true,
        not_false_eq_true, replaceAllCore_single p repl fuel rest hrest, if_false,
        List.singleton_append]

/-- The chars of a `String.mk`. -/
theorem data_mk (l : List Char) : (String.mk l).data = l := rfl

/-- Markdown escaping acts per character: `escapeMarkdownCell` is exactly the
reference escaping of the display string. -/
theorem escapeMarkdownCell_eq_ref (value : JsVal) :
    escapeMarkdownCell value = mdEscapeRef (jsToString value) := by
  apply String.ext
  show (String.mk (replaceAllCore '|' [] ['\\', '|']
    (jsToString value).data.length (jsToString value).data)).data = _
  rw [data_mk, replaceAllCore_single _ _ _ _ (le_refl _), mdEscapeRef, data_mk]
  rfl

/-- Single-pattern form of each `replaceAll` step of `escapeHtml`. -/
theorem jsReplaceAll_single (s : String) (p : Char) (repl : String) :
    jsReplaceAll s ⟨[p]⟩ repl = ⟨s.data.flatMap (fun c => if c == p then repl.data else [c])⟩ := by
  show String.mk (replaceAllCore p [] repl.data s.data.length s.data) = _
  rw [replaceAllCore_single _ _ _ _ (le_refl _)]

/-- The five entity substitutions composed per character equal the
reference per-character escaping. -/
theorem escChain (c : Char) :
    ((((if c == '&' then ("&amp;" : String).data else [c]).flatMap
        (fun d => if d == '<' then ("&lt;" : String).data else [d])).flatMap
        (fun d => if d == '>' then ("&gt;" : String).data else [d])).flatMap
        (fun d => if d == '"' then ("&quot;" : String).data else [d])).flatMap
        (fun d => if d == '\'' then ("&#39;" : String).data else [d]) = escCharHtml c := by
  by_cases h1 : c == '&'
  · rw [beq_iff_eq] at h1; subst h1; rfl
  by_cases h2 : c == '<'
  · rw [beq_iff_eq] at h2; subst h2; rfl
  by_cases h3 : c == '>'
  · rw [beq_iff_eq] at h3; subst h3; rfl
  by_cases h4 : c == '"'
  · rw [beq_iff_eq] at h4; subst h4; rfl
  by_cases h5 : c == '\''
  · rw [beq_iff_eq] at h5; subst h5; rfl
  simp only [beq_iff_eq] at h1 h2 h3 h4 h5
  simp [escCharHtml, h1, h2, h3, h4, h5]

/-- List form of `escChain`. -/
theorem escChainList : ∀ l : List Char,
    ((((l.flatMap (fun d => if d == '&' then ("&amp;" : String).data else [d])).flatMap
        (fun d => if d == '<' then ("&lt;" : String).data else [d])).flatMap
        (fun d => if d == '>' then ("&gt;" : String).data else [d])).flatMap
        (fun d => if d == '"' then ("&quot;" : String).data else [d])).flatMap
        (fun d => if d == '\'' then ("&#39;" : String).data else [d]) = l.flatMap escCharHtml
  | [] => rfl
  | c :: rest => by
    simp only [List.flatMap_cons, List.flatMap_append]
    rw [escChainList rest, escChain c]

/-- HTML escaping acts per character: `escapeHtml` applies the five
substitutions in source order (so no entity is re-escaped). -/
theorem escapeHtml_data (value : JsVal) :
    (escapeHtml value).data = (jsToString value).data.flatMap escCharHtml := by
  unfold escapeHtml
  rw [show ("&" : String) = ⟨['&']⟩ from rfl, show ("<" : String) = ⟨['<']⟩ from rfl,
      show (">" : String) = ⟨['>']⟩ from rfl, show ("\"" : String) = ⟨['"']⟩ from rfl,
      show ("'" : String) = ⟨['\'']⟩ from rfl]
  rw [jsReplaceAll_single, jsReplaceAll_single, jsReplaceAll_single, jsReplaceAll_single,
      jsReplaceAll_single]
  rw [data_mk, data_mk, data_mk, data_mk, data_mk]
  exact escChainList _

/-- String form of `escapeHtml_data`. -/
theorem escapeHtml_eq_ref (value : JsVal) : escapeHtml value = escapeHtmlRef value :=
  String.ext (escapeHtml_data value)

/-- Inserting adds one element. -/
theorem length_stableInsert (c : α → α → Int) (x : α) :
    ∀ l : List α, (stableInsert c x l).length = l.length + 1
  | [] => rfl
  | y :: ys => by
    rw [stableInsert]
    by_cases h : c x y ≤ 0
    · simp [h]
    · simp [h, length_stableInsert c x ys]

/-- The stable sort preserves length. -/
theorem length_insertionSortBy (c : α → α → Int) :
    ∀ l : List α, (insertionSortBy c l).length = l.length
  | [] => rfl
  | x :: l => by
    show (stableInsert c x (insertionSortBy c l)).length = _
    rw [length_stableInsert, length_insertionSortBy c l, List.length_cons]

/-- Membership after insertion. -/
theorem mem_stableInsert (c : α → α → Int) (x a : α) :
    ∀ l : List α, (a ∈ stableInsert c x l ↔ a = x ∨ a ∈ l)
  | [] => by simp [stableInsert]
  | y :: ys => by
    rw [stableInsert]
    by_cases h : c x y ≤ 0
    · rw [if_pos h]
      simp only [List.mem_cons]
    · rw [if_neg h]
      simp only [List.mem_cons, mem_stableInsert c x a ys]
      tauto

/-- The stable sort preserves membership. -/
theorem mem_insertionSortBy (c : α → α → Int) (a : α) :
    ∀ l : List α, (a ∈ insertionSortBy c l ↔ a ∈ l)
  | [] => Iff.rfl
  | x :: l => by
    show a ∈ stableInsert c x (insertionSortBy c l) ↔ _
    rw [mem_stableInsert, mem_insertionSortBy c a l]
    exact (List.mem_cons).symm

/-- A finite-year row names a concrete integer year. -/
theorem finiteYear_iff (r : WBRow) :
    finiteYear r = true ↔ ∃ n : Int, toNumber r.year = .fin n := by
  unfold finiteYear
  cases h : toNumber r.year <;> simp

/-- On finite years, the comparator decides the descending order. -/
theorem rowCompare_le_iff {a b : WBRow} {x y : Int}
    (ha : toNumber a.year = .fin x) (hb : toNumber b.year = .fin y) :
    rowCompare a b ≤ 0 ↔ y ≤ x := by
  unfold rowCompare
  rw [ha, hb]
  simp only [jsSub, sortCompareValue]
  omega

/-- JS `>=` on finite numbers. -/
theorem jsGE_fin {x y : Int} : (JsNum.fin x).jsGE (JsNum.fin y) = true ↔ y ≤ x := by
  simp [JsNum.jsGE]

/-- Inserting a finite-year row into a finite-year non-increasing list
keeps it non-increasing. -/
theorem yni_stableInsert (x : WBRow) (hx : finiteYear x = true) :
    ∀ l : List WBRow, (∀ r ∈ l, finiteYear r = true) →
      yearsNonIncreasing l = true →
      yearsNonIncreasing (stableInsert rowCompare x l) = true
  | [], _, _ => rfl
  | y :: ys, hall, hchain => by
    have hy : finiteYear y = true := hall y (List.mem_cons_self y ys)
    obtain ⟨xv, hxv⟩ := (finiteYear_iff x).1 hx
    obtain ⟨yv, hyv⟩ := (finiteYear_iff y).1 hy
    rw [stableInsert]
    by_cases hxy : rowCompare x y ≤ 0
    · rw [if_pos hxy]
      have h1 : (toNumber x.year).jsGE (toNumber y.year) = true := by
        rw [hxv, hyv, jsGE_fin]
        exact (rowCompare_le_iff hxv hyv).1 hxy
      have goalEq : yearsNonIncreasing (x :: y :: ys) =
          ((toNumber x.year).jsGE (toNumber y.year) && yearsNonIncreasing (y :: ys)) := rfl
      rw [goalEq, h1, hchain]
      rfl
    · rw [if_neg hxy]
      have hyx : (toNumber y.year).jsGE (toNumber x.year) = true := by
        rw [hyv, hxv, jsGE_fin]
        have h2 : ¬ (yv ≤ xv) := fun hc => hxy ((rowCompare_le_iff hxv hyv).2 hc)
        omega
      cases ys with
      | nil => simp [stableInsert, yearsNonIncreasing, hyx]
      | cons z zs =>
        have hz : finiteYear z = true := hall z (by simp)
        have hchainEq : yearsNonIncreasing (y :: z :: zs) =
            ((toNumber y.year).jsGE (toNumber z.year) && yearsNonIncreasing (z :: zs)) := rfl
        rw [hchainEq, Bool.and_eq_true] at hchain
        have ih := yni_stableInsert x hx (z :: zs)
          (fun r hr => hall r (List.mem_cons_of_mem _ hr)) hchain.2
        rw [stableInsert] at ih ⊢
        by_cases hxz : rowCompare x z ≤ 0
        · rw [if_pos hxz] at ih ⊢
          have goalEq : yearsNonIncreasing (y :: x :: z :: zs) =
              ((toNumber y.year).jsGE (toNumber x.year) && yearsNonIncreasing (x :: z :: zs)) := rfl
          rw [goalEq, hyx, ih]
          rfl
        · rw [if_neg hxz] at ih ⊢
          have goalEq : yearsNonIncreasing (y :: z :: stableInsert rowCompare x zs) =
              ((toNumber y.year).jsGE (toNumber z.year) &&
               yearsNonIncreasing (z :: stableInsert rowCompare x zs)) := rfl
          rw [goalEq, hchain.1, ih]
          rfl

/-- The stable sort of finite-year rows is non-increasing in year. -/
theorem yni_insertionSortBy (l : List WBRow) (hall : ∀ r ∈ l, finiteYear r = true) :
    yearsNonIncreasing (insertionSortBy rowCompare l) = true := by
  induction l with
  | nil => rfl
  | cons x xs ih =>
    show yearsNonIncreasing (stableInsert rowCompare x (insertionSortBy rowCompare xs)) = true
    refine yni_stableInsert x (hall x (by simp)) _ ?_ ?_
    · intro r hr
      exact hall r (List.mem_cons_of_mem _ ((mem_insertionSortBy _ _ _).1 hr))
    · exact ih (fun r hr => hall r (List.mem_cons_of_mem _ hr))

/-- A limit already inside [1, 20] is unchanged by the clamp. -/
theorem clampLimit_of_valid {l : Int} (h1 : 1 ≤ l) (h2 : l ≤ 20) : clampLimit l = l := by
  unfold clampLimit
  omega

/-- Normalization never yields more rows than the requested limit. -/
theorem length_normalizeRows (cc ic : String) (lim : Int) (payload : JsVal) :
    (normalizeRows cc ic lim payload).length ≤ lim.toNat := by
  unfold normalizeRows
  rw [List.length_map]
  exact (List.length_take_le _ _)

/-- A payload that is not an array, or whose second element is not an
array, selects no entries. -/
theorem wbEntries_empty (payload : JsVal)
    (h : isJsArray payload = false ∨ isJsArray (arrayIndex payload 1) = false) :
    wbEntries payload = [] := by
  cases payload
  case vArr elems =>
    show (match elems.get? 1 with | some (.vArr entries) => entries | _ => []) = []
    rcases h with h | h
    · simp [isJsArray] at h
    · have h2 : isJsArray ((elems.get? 1).getD JsVal.vUndefined) = false := h
      cases he : elems.get? 1 with
      | none => rfl
      | some v =>
        simp only [Option.getD_some] at h2
        cases v <;> first | rfl | simp_all [isJsArray]
  all_goals rfl

/-- The `Country` cell of a table row. -/
theorem rowGet_Country (r : WBRow) : rowGet (tableRowOf r) "Country" = r.country := rfl

/-- The `Indicator` cell of a table row. -/
theorem rowGet_Indicator (r : WBRow) : rowGet (tableRowOf r) "Indicator" = r.indicator := rfl

/-- The `Year` cell of a table row. -/
theorem rowGet_Year (r : WBRow) : rowGet (tableRowOf r) "Year" = r.year := rfl

/-- The `Value` cell of a table row. -/
theorem rowGet_Value (r : WBRow) : rowGet (tableRowOf r) "Value" = formatNumber r.value := rfl

/- ------------------------------------------------------------------
Claim theorems.
------------------------------------------------------------------ -/

/-- C1: whenever `startYear` is strictly greater than `endYear`, the
`queryOpenDatabase` handler returns the validation error result (the
`isError` response with its human-readable message) and performs no
outbound HTTP request — the result is the same for every possible fetch
outcome and the request flag stays `false`. -/
theorem c1_validation_no_fetch (p : QueryParams) (h : p.startYear > p.endYear)
    (o : HttpOutcome) :
    queryOpenDatabase p o =
      (.errorResult "Invalid range: startYear must be less than or equal to endYear.", false) := by
  unfold queryOpenDatabase
  rw [if_pos h]

/-- Witness for C1 at `startYear = 2024 > endYear = 2018`. -/
theorem c1_validation_no_fetch_witness :
    ((⟨"CAN", "SP.POP.TOTL", 2024, 2018, 10⟩ : QueryParams).startYear >
      (⟨"CAN", "SP.POP.TOTL", 2024, 2018, 10⟩ : QueryParams).endYear) ∧
    queryOpenDatabase ⟨"CAN", "SP.POP.TOTL", 2024, 2018, 10⟩ (.netError "unreachable") =
      (.errorResult "Invalid range: startYear must be less than or equal to endYear.", false) :=
  ⟨by decide,
   c1_validation_no_fetch ⟨"CAN", "SP.POP.TOTL", 2024, 2018, 10⟩ (by decide) (.netError "unreachable")⟩

/-- C8: `formatNumber` renders every finite numeric value with en-US
thousands separators, turns null/undefined into the empty string, and
passes every other value (strings, NaN, ±Infinity, booleans, arrays,
objects) through unchanged; the pipeline applies it exactly to the
`Value` cell of each row. -/
theorem c8_value_formatting :
    (∀ n : Int, formatNumber (.vNum n) = .vStr (formatEnUS n)) ∧
    formatEnUS 1234567 = "1,234,567" ∧
    formatEnUS (-1000) = "-1,000" ∧
    formatEnUS 0 = "0" ∧
    formatEnUS 1000000000 = "1,000,000,000" ∧
    formatNumber .vNull = .vStr "" ∧
    formatNumber .vUndefined = .vStr "" ∧
    (∀ s : String, formatNumber (.vStr s) = .vStr s) ∧
    formatNumber .vNaN = .vNaN ∧
    (∀ b : Bool, formatNumber (.vInf b) = .vInf b) ∧
    (∀ b : Bool, formatNumber (.vBool b) = .vBool b) ∧
    (∀ elems : List JsVal, formatNumber (.vArr elems) = .vArr elems) ∧
    (∀ fields : List (String × JsVal), formatNumber (.vObj fields) = .vObj fields) ∧
    (∀ r : WBRow, rowGet (tableRowOf r) "Value" = formatNumber r.value) :=
  ⟨fun _ => rfl, rfl, rfl, rfl, rfl, rfl, rfl, fun _ => rfl, rfl, fun _ => rfl,
   fun _ => rfl, fun _ => rfl, fun _ => rfl, fun _ => rfl⟩

/-- Counterexample to C3 as stated: the tool's declared zod schema
restricts `limit` to [1, 20], so a call with `limit = 50` is rejected
by argument validation (the schema-validated callable returns no
handler result), while a call with `limit = 20` does run — the two
calls do not behave identically, and out-of-range limits are rejected
rather than clamped at the tool boundary. -/
theorem c3_clamp_counterexample :
    queryOpenDatabaseTool ⟨"CAN", "SP.POP.TOTL", 2018, 2024, 50⟩ (.netError "x") = none ∧
    (queryOpenDatabaseTool ⟨"CAN", "SP.POP.TOTL", 2018, 2024, 20⟩ (.netError "x")).isSome = true ∧
    limitSchemaValid 50 = false ∧
    limitSchemaValid 0 = false :=
  ⟨rfl, rfl, rfl, rfl⟩

/-- C3 amended: the clamp lives in `fetchWorldBankIndicator`, where a
direct call with `limit = 50` behaves exactly as one with `limit = 20`
and `limit = 0` exactly as `limit = 1` (the clamped value is used both
in the request URL and for truncation), and the clamp always lands in
[1, 20]; at the `queryOpenDatabase` tool boundary, however, the zod
schema rejects limits outside [1, 20] before the handler runs. -/
theorem c3_clamp_amended :
    (∀ (cc ic : String) (sy ey : Int) (o : HttpOutcome),
        fetchWorldBankIndicator ⟨cc, ic, sy, ey, 50⟩ o =
          fetchWorldBankIndicator ⟨cc, ic, sy, ey, 20⟩ o ∧
        fetchWorldBankIndicator ⟨cc, ic, sy, ey, 0⟩ o =
          fetchWorldBankIndicator ⟨cc, ic, sy, ey, 1⟩ o) ∧
    (∀ l : Int, 1 ≤ clampLimit l ∧ clampLimit l ≤ 20) ∧
    (∀ l : Int, limitSchemaValid l = false ↔ (l < 1 ∨ 20 < l)) := by
  refine ⟨?_, ?_, ?_⟩
  · intro cc ic sy ey o
    constructor <;> rfl
  · intro l
    unfold clampLimit
    omega
  · intro l
    unfold limitSchemaValid
    simp only [Bool.and_eq_true, decide_eq_true_eq, Bool.and_eq_false_iff,
      decide_eq_false_iff_not]
    omega

/-- Inversion of the handler's success path: a success result can only
arise from a 2xx response with a parsed payload, and its fields are the
renderings of the sorted normalized rows. -/
theorem queryOpenDatabase_success_shape {p : QueryParams} {o : HttpOutcome}
    {s : SuccessPayload} (h : (queryOpenDatabase p o).1 = .success s) :
    ∃ payload : JsVal,
      s.rawRows = insertionSortBy rowCompare
        (normalizeRows p.countryCode p.indicatorCode (clampLimit p.limit) payload) ∧
      s.rows = tableRowsOf s.rawRows ∧
      s.widget.title = stripMarkdownBold (queryTitle p s.rawRows) ∧
      s.markdownTable = buildMarkdownTable queryColumns s.rows ∧
      s.htmlTable = buildHtmlTable queryColumns s.rows := by
  unfold queryOpenDatabase at h
  by_cases hv : p.startYear > p.endYear
  · rw [if_pos hv] at h
    exact absurd h (by simp)
  · rw [if_neg hv] at h
    unfold fetchWorldBankIndicator at h
    cases o with
    | netError msg => exact absurd h (by simp)
    | resp status body =>
      dsimp only at h
      by_cases hok : httpOk status
      · rw [if_neg (show ¬((!httpOk status) = true) by simp [hok])] at h
        cases body with
        | error msg => exact absurd h (by simp)
        | ok payload =>
          refine ⟨payload, ?_⟩
          injection h with h2
          subst h2
          exact ⟨rfl, rfl, rfl, rfl, rfl⟩
      · rw [if_pos (show (!httpOk status) = true by simp [hok])] at h
        cases body <;> exact absurd h (by simp)

/-- C2: for every schema-valid parameter set with startYear ≤ endYear,
the handler resolves to a structured result: either a success result
with at most `limit` rows; or, for a non-2xx upstream response, an
error result whose message carries the HTTP status; or, for a network
failure, an error result whose message carries that failure's own
message; or, for a parse failure of a 2xx response, an error result
whose message carries that parse failure's own message.  The handler
itself is a total function, so no call terminates with an uncaught
exception. -/
theorem c2_total_resolution (p : QueryParams) (hv : paramsSchemaValid p = true)
    (hle : p.startYear ≤ p.endYear) (o : HttpOutcome) :
    (∃ s : SuccessPayload, (queryOpenDatabase p o).1 = .success s ∧
      s.rows.length ≤ p.limit.toNat ∧ s.rawRows.length ≤ p.limit.toNat) ∨
    (∃ (status : Nat) (body : Except String JsVal), o = .resp status body ∧
      httpOk status = false ∧
      (queryOpenDatabase p o).1 =
        .errorResult ("Failed to query open database: " ++
          ("World Bank API request failed: " ++ toString status))) ∨
    (∃ msg : String, o = .netError msg ∧
      (queryOpenDatabase p o).1 =
        .errorResult ("Failed to query open database: " ++ msg)) ∨
    (∃ (status : Nat) (msg : String), o = .resp status (.error msg) ∧
      httpOk status = true ∧
      (queryOpenDatabase p o).1 =
        .errorResult ("Failed to query open database: " ++ msg)) := by
  have hlim : clampLimit p.limit = p.limit := by
    unfold paramsSchemaValid limitSchemaValid at hv
    simp only [Bool.and_eq_true, decide_eq_true_eq] at hv
    exact clampLimit_of_valid hv.2.1 hv.2.2
  unfold queryOpenDatabase
  rw [if_neg (by omega)]
  unfold fetchWorldBankIndicator
  cases o with
  | netError msg => exact Or.inr (Or.inr (Or.inl ⟨msg, rfl, rfl⟩))
  | resp status body =>
    dsimp only
    by_cases hok : httpOk status
    · rw [if_neg (show ¬((!httpOk status) = true) by simp [hok])]
      cases body with
      | error msg => exact Or.inr (Or.inr (Or.inr ⟨status, msg, rfl, hok, rfl⟩))
      | ok payload =>
        refine Or.inl ⟨querySuccessPayload p
          { source := "World Bank Open Data API"
            endpoint := wbEndpoint p (clampLimit p.limit)
            rows := normalizeRows p.countryCode p.indicatorCode (clampLimit p.limit) payload },
          rfl, ?_, ?_⟩
        · show (tableRowsOf (insertionSortBy rowCompare
            (normalizeRows p.countryCode p.indicatorCode (clampLimit p.limit) payload))).length ≤ _
          rw [tableRowsOf, List.length_map, length_insertionSortBy, hlim]
          exact length_normalizeRows _ _ _ _
        · show (insertionSortBy rowCompare
            (normalizeRows p.countryCode p.indicatorCode (clampLimit p.limit) payload)).length ≤ _
          rw [length_insertionSortBy, hlim]
          exact length_normalizeRows _ _ _ _
    · rw [if_pos (show (!httpOk status) = true by simp [hok])]
      refine Or.inr (Or.inl ⟨status, body, rfl, by simp [hok], rfl⟩)

/-- Witness for C2 at the default-like parameters and a parsed 200
response carrying the mock payload. -/
theorem c2_total_resolution_witness :
    paramsSchemaValid defaultParams = true ∧
    defaultParams.startYear ≤ defaultParams.endYear ∧
    ((∃ s : SuccessPayload,
        (queryOpenDatabase defaultParams (.resp 200 (.ok mockPayload))).1 = .success s ∧
        s.rows.length ≤ defaultParams.limit.toNat ∧
        s.rawRows.length ≤ defaultParams.limit.toNat) ∨
    (∃ (status : Nat) (body : Except String JsVal),
        (.resp 200 (.ok mockPayload) : HttpOutcome) = .resp status body ∧
        httpOk status = false ∧
        (queryOpenDatabase defaultParams (.resp 200 (.ok mockPayload))).1 =
          .errorResult ("Failed to query open database: " ++
            ("World Bank API request failed: " ++ toString status))) ∨
    (∃ msg : String, (.resp 200 (.ok mockPayload) : HttpOutcome) = .netError msg ∧
        (queryOpenDatabase defaultParams (.resp 200 (.ok mockPayload))).1 =
          .errorResult ("Failed to query open database: " ++ msg)) ∨
    (∃ (status : Nat) (msg : String),
        (.resp 200 (.ok mockPayload) : HttpOutcome) = .resp status (.error msg) ∧
        httpOk status = true ∧
        (queryOpenDatabase defaultParams (.resp 200 (.ok mockPayload))).1 =
          .errorResult ("Failed to query open database: " ++ msg))) :=
  ⟨rfl, by decide,
   c2_total_resolution defaultParams rfl (by decide) (.resp 200 (.ok mockPayload))⟩

/-- C4: row normalization equals the claim's reference definition on
every payload (not-an-array or second-element-not-an-array yields the
empty sequence; otherwise keep in order the truthy observations with
non-null value, truncate to the clamped limit, project with label
fallback); on the mock payload (2020 → 100, 2019 → null, 2018 → 50)
with limit 10 it yields exactly the 2020 row then the 2018 row; and on
a structurally mismatched payload the operation still returns a
success result with an empty table. -/
theorem c4_normalization :
    (∀ (cc ic : String) (lim : Int) (payload : JsVal),
        normalizeRows cc ic lim payload = normalizeRowsRef cc ic lim payload) ∧
    normalizeRows "CAN" "SP.POP.TOTL" (clampLimit 10) mockPayload =
      [⟨.vStr "2020", .vNum 100, .vStr "Canada", .vStr "Population, total"⟩,
       ⟨.vStr "2018", .vNum 50, .vStr "Canada", .vStr "Population, total"⟩] ∧
    (∀ (p : QueryParams) (status : Nat) (payload : JsVal),
        ¬ p.startYear > p.endYear → httpOk status = true →
        (isJsArray payload = false ∨ isJsArray (arrayIndex payload 1) = false) →
        ∃ s : SuccessPayload,
          (queryOpenDatabase p (.resp status (.ok payload))).1 = .success s ∧
          s.rows = [] ∧ s.rawRows = []) := by
  refine ⟨?_, rfl, ?_⟩
  · intro cc ic lim payload
    have hproj : wbProject cc ic = (fun item =>
        ({ year := getField item "date"
           value := getField item "value"
           country := coalesce (optChainField item "country" "value") (.vStr cc)
           indicator := coalesce (optChainField item "indicator" "value") (.vStr ic) } : WBRow)) :=
      funext (fun item => rfl)
    cases payload <;> try (simp [normalizeRows, normalizeRowsRef, wbEntries, hproj])
    case vArr elems =>
      rcases elems with _ | ⟨e1, elems2⟩
      · simp [normalizeRows, normalizeRowsRef, wbEntries]
      rcases elems2 with _ | ⟨e2, rest⟩
      · simp [normalizeRows, normalizeRowsRef, wbEntries]
      cases e2 <;> simp [normalizeRows, normalizeRowsRef, wbEntries, hproj]
  · intro p status payload hv hok hmal
    refine ⟨querySuccessPayload p
      { source := "World Bank Open Data API"
        endpoint := wbEndpoint p (clampLimit p.limit)
        rows := normalizeRows p.countryCode p.indicatorCode (clampLimit p.limit) payload },
      ?_, ?_, ?_⟩
    · unfold queryOpenDatabase
      rw [if_neg hv]
      unfold fetchWorldBankIndicator
      dsimp only
      rw [if_neg (show ¬((!httpOk status) = true) by simp [hok])]
    · show tableRowsOf (insertionSortBy rowCompare
        (normalizeRows p.countryCode p.indicatorCode (clampLimit p.limit) payload)) = []
      rw [normalizeRows, wbEntries_empty payload hmal]
      simp [tableRowsOf, insertionSortBy]
    · show insertionSortBy rowCompare
        (normalizeRows p.countryCode p.indicatorCode (clampLimit p.limit) payload) = []
      rw [normalizeRows, wbEntries_empty payload hmal]
      simp [insertionSortBy]

/-- Witness for C4's conditional part at a non-array payload. -/
theorem c4_normalization_witness :
    ∃ s : SuccessPayload,
      (queryOpenDatabase defaultParams (.resp 200 (.ok (.vStr "no")))).1 = .success s ∧
      s.rows = [] ∧ s.rawRows = [] :=
  c4_normalization.2.2 defaultParams 200 (.vStr "no") (by decide) rfl (Or.inl rfl)

/-- Counterexample to C9 as stated: a successful call whose kept rows
have years "abc" (which `Number` turns into NaN) then "2020" leaves
that order unchanged (the comparator result NaN counts as 0, and the
sort is stable), and the resulting rawRows order is not non-increasing
in the numeric year — the NaN year compares `>=` false against 2020. -/
theorem c9_sort_counterexample :
    ((queryOpenDatabase defaultParams (.resp 200 (.ok nanYearPayload))).1).isSuccess = true ∧
    yearsNonIncreasing
      ((queryOpenDatabase defaultParams (.resp 200 (.ok nanYearPayload))).1).rawRowsOf = false :=
  ⟨rfl, rfl⟩

/-- C9 amended: on every successful call the normalized rows are
stably sorted by the descending-year comparator, so whenever every
kept row's year parses to a finite number the rendered order (rows,
tables and structured rawRows all derive from it) is non-increasing in
the numeric year. -/
theorem c9_sorted_desc_amended (p : QueryParams) (o : HttpOutcome) (s : SuccessPayload)
    (h : (queryOpenDatabase p o).1 = .success s)
    (hfin : ∀ r ∈ s.rawRows, finiteYear r = true) :
    yearsNonIncreasing s.rawRows = true := by
  obtain ⟨payload, hraw, -, -, -, -⟩ := queryOpenDatabase_success_shape h
  rw [hraw] at hfin ⊢
  apply yni_insertionSortBy
  intro r hr
  exact hfin r ((mem_insertionSortBy _ _ _).2 hr)

/-- Witness for C9's amended statement: a payload listing 2018 before
2020 comes back sorted 2020 then 2018. -/
theorem c9_sorted_desc_amended_witness :
    yearsNonIncreasing (successPayloadOf
      ((queryOpenDatabase defaultParams (.resp 200 (.ok ascendingPayload))).1)).rawRows = true :=
  c9_sorted_desc_amended defaultParams (.resp 200 (.ok ascendingPayload)) _ rfl (by decide)

/-- The title of a non-empty sorted row list none of whose years is
finite: labels from the first row, year span from the requested range. -/
theorem queryTitle_no_finite_years (p : QueryParams) (r0 : WBRow) (rest : List WBRow)
    (h : finiteYearsOf (r0 :: rest) = []) :
    queryTitle p (r0 :: rest) =
      "**" ++ jsToString r0.country ++ " - " ++ jsToString r0.indicator ++
      " (" ++ toString p.startYear ++ "-" ++ toString p.endYear ++ ")**" := by
  unfold queryTitle
  rw [h]
  rfl

/-- C10: when a successful call keeps at least one row but none of the
kept years parses to a finite number, the title's year span falls back
to the requested startYear–endYear while its labels still come from
the first sorted row, and the widget carries the stripped variant —
the year-span fallback is independent of the zero-row label fallback. -/
theorem c10_year_span_fallback (p : QueryParams) (o : HttpOutcome) (s : SuccessPayload)
    (h : (queryOpenDatabase p o).1 = .success s)
    (r0 : WBRow) (rest : List WBRow) (hrows : s.rawRows = r0 :: rest)
    (hfin : finiteYearsOf s.rawRows = []) :
    queryTitle p s.rawRows =
      "**" ++ jsToString r0.country ++ " - " ++ jsToString r0.indicator ++
      " (" ++ toString p.startYear ++ "-" ++ toString p.endYear ++ ")**" ∧
    s.widget.title = stripMarkdownBold (queryTitle p s.rawRows) := by
  obtain ⟨payload, -, -, htitle, -, -⟩ := queryOpenDatabase_success_shape h
  rw [hrows] at hfin ⊢
  exact ⟨queryTitle_no_finite_years p r0 rest hfin, by rw [← hrows]; exact htitle⟩

/-- The title of a non-empty sorted row list with finite years y :: ys:
labels from the first row, year span from the folded min and max. -/
theorem queryTitle_cons_years (p : QueryParams) (r0 : WBRow) (rest : List WBRow)
    (y : Int) (ys : List Int) (hY : finiteYearsOf (r0 :: rest) = y :: ys) :
    queryTitle p (r0 :: rest) =
      "**" ++ jsToString r0.country ++ " - " ++ jsToString r0.indicator ++
      " (" ++ toString (ys.foldl min y) ++ "-" ++ toString (ys.foldl max y) ++ ")**" := by
  unfold queryTitle
  rw [hY]
  rfl

/-- C7: with at least one row and at least one finite year, the title
is "<Country> - <Indicator> (<minYear>-<maxYear>)" (in bold markers)
built from the first sorted row's labels and the extreme finite years;
with zero rows it falls back to the requested codes and year range (in
particular "FRA - SP.POP.TOTL (2018-2020)" for the FRA call with an
empty result), and the widget carries the plain-text variant with the
bold markers stripped. -/
theorem c7_title :
    (∀ (p : QueryParams) (r0 : WBRow) (rest : List WBRow) (mn mx : Int),
        (finiteYearsOf (r0 :: rest)).min? = some mn →
        (finiteYearsOf (r0 :: rest)).max? = some mx →
        queryTitle p (r0 :: rest) =
          "**" ++ jsToString r0.country ++ " - " ++ jsToString r0.indicator ++
          " (" ++ toString mn ++ "-" ++ toString mx ++ ")**") ∧
    (∀ p : QueryParams, queryTitle p [] =
        "**" ++ p.countryCode ++ " - " ++ p.indicatorCode ++
        " (" ++ toString p.startYear ++ "-" ++ toString p.endYear ++ ")**") ∧
    (∀ (p : QueryParams) (o : HttpOutcome) (s : SuccessPayload),
        (queryOpenDatabase p o).1 = .success s →
        s.widget.title = stripMarkdownBold (queryTitle p s.rawRows)) ∧
    ((queryOpenDatabase ⟨"FRA", "SP.POP.TOTL", 2018, 2020, 10⟩
        (.resp 200 (.ok (.vArr [])))).1).widgetTitleOf = "FRA - SP.POP.TOTL (2018-2020)" ∧
    ((queryOpenDatabase ⟨"FRA", "SP.POP.TOTL", 2018, 2020, 10⟩
        (.resp 200 (.ok (.vArr [])))).1).isSuccess = true := by
  refine ⟨?_, fun p => rfl, ?_, rfl, rfl⟩
  · intro p r0 rest mn mx hmn hmx
    cases hY : finiteYearsOf (r0 :: rest) with
    | nil => rw [hY] at hmn; exact absurd hmn (by simp)
    | cons y ys =>
      rw [hY] at hmn hmx
      have hmn2 : ys.foldl min y = mn := Option.some.inj hmn
      have hmx2 : ys.foldl max y = mx := Option.some.inj hmx
      rw [← hmn2, ← hmx2]
      exact queryTitle_cons_years p r0 rest y ys hY
  · intro p o s h
    obtain ⟨payload, -, -, htitle, -, -⟩ := queryOpenDatabase_success_shape h
    exact htitle

/-- Witness for C7's min/max part on two kept rows (2020 and 2018). -/
theorem c7_title_witness :
    ((finiteYearsOf [⟨.vStr "2020", .vNum 100, .vStr "Canada", .vStr "Population, total"⟩,
        ⟨.vStr "2018", .vNum 50, .vStr "Canada", .vStr "Population, total"⟩]).min? =
      some 2018) ∧
    ((finiteYearsOf [⟨.vStr "2020", .vNum 100, .vStr "Canada", .vStr "Population, total"⟩,
        ⟨.vStr "2018", .vNum 50, .vStr "Canada", .vStr "Population, total"⟩]).max? =
      some 2020) ∧
    queryTitle defaultParams
      [⟨.vStr "2020", .vNum 100, .vStr "Canada", .vStr "Population, total"⟩,
       ⟨.vStr "2018", .vNum 50, .vStr "Canada", .vStr "Population, total"⟩] =
      "**" ++ jsToString (JsVal.vStr "Canada") ++ " - " ++
      jsToString (JsVal.vStr "Population, total") ++
      " (" ++ toString (2018 : Int) ++ "-" ++ toString (2020 : Int) ++ ")**" :=
  ⟨rfl, rfl,
   c7_title.1 defaultParams
     ⟨.vStr "2020", .vNum 100, .vStr "Canada", .vStr "Population, total"⟩
     [⟨.vStr "2018", .vNum 50, .vStr "Canada", .vStr "Population, total"⟩]
     2018 2020 rfl rfl⟩

/-- C5: the rendered Markdown table equals the reference rendering —
a header line of escaped column labels, one divider line with "---"
for left-aligned and "---:" for right-aligned columns, then one line
per input row in order, joined by newlines; every cell value has each
"|" escaped to "\\|" per character, and a missing (or nullish) cell
value renders as the empty string. -/
theorem c5_markdown_table (columns : List Column) (rows : List TableRow) :
    buildMarkdownTable columns rows = markdownTableRef columns rows := by
  have hcell : ∀ (row : TableRow) (key : String),
      escapeMarkdownCell (coalesce (rowGet row key) (.vStr "")) = mdCellRef row key := by
    intro row key
    unfold mdCellRef coalesce
    by_cases h : nullish (rowGet row key)
    · rw [if_pos h, if_pos h]
      rfl
    · rw [if_neg h, if_neg h]
      exact escapeMarkdownCell_eq_ref _
  have hmap1 : columns.map (fun column => escapeMarkdownCell (.vStr column.label)) =
      columns.map (fun column => mdEscapeRef column.label) := by
    congr 1
    funext column
    exact escapeMarkdownCell_eq_ref _
  have hbody : (fun row => "| " ++ String.intercalate " | "
      (columns.map (fun column =>
        escapeMarkdownCell (coalesce (rowGet row column.key) (.vStr "")))) ++ " |") =
      mdRowLineRef columns := by
    funext row
    unfold mdRowLineRef mdLine
    rw [show columns.map (fun column =>
          escapeMarkdownCell (coalesce (rowGet row column.key) (.vStr ""))) =
        columns.map (fun column => mdCellRef row column.key) from by
      congr 1
      funext column
      exact hcell row column.key]
  unfold buildMarkdownTable markdownTableRef mdHeaderLineRef mdDividerLineRef mdLine
  rw [hmap1, hbody]

/-- C6: the rendered HTML table equals the reference rendering in
which every header label and every cell value is inserted only through
the per-character entity escaping of ampersand, angle brackets and
both quotes; and the escaped text never contains a raw '<', '>', '"'
or apostrophe character, so no unescaped upstream text reaches the
HTML output. -/
theorem c6_html_escaping :
    (∀ (columns : List Column) (rows : List TableRow),
        buildHtmlTable columns rows = htmlTableRef columns rows) ∧
    (∀ (value : JsVal) (c : Char), c ∈ (escapeHtml value).data →
        c ≠ '<' ∧ c ≠ '>' ∧ c ≠ '"' ∧ c ≠ '\'') := by
  constructor
  · intro columns rows
    simp only [buildHtmlTable, htmlTableRef, htmlHeaderCellRef, htmlCellRef, htmlRowRef,
      escapeHtml_eq_ref]
    rw [show List.map htmlHeaderCellRef columns = List.map (fun column =>
        "<th style=\"" ++ thStyle ++ "\">" ++ escapeHtmlRef (JsVal.vStr column.label) ++ "</th>")
        columns from by congr 1]
  · intro value c hc
    rw [escapeHtml_data] at hc
    obtain ⟨c0, -, hmem⟩ := List.mem_flatMap.1 hc
    unfold escCharHtml at hmem
    split_ifs at hmem with h1 h2 h3 h4 h5
    · exact (show ∀ x ∈ ("&amp;" : String).data,
        x ≠ '<' ∧ x ≠ '>' ∧ x ≠ '"' ∧ x ≠ '\'' by decide) c hmem
    · exact (show ∀ x ∈ ("&lt;" : String).data,
        x ≠ '<' ∧ x ≠ '>' ∧ x ≠ '"' ∧ x ≠ '\'' by decide) c hmem
    · exact (show ∀ x ∈ ("&gt;" : String).data,
        x ≠ '<' ∧ x ≠ '>' ∧ x ≠ '"' ∧ x ≠ '\'' by decide) c hmem
    · exact (show ∀ x ∈ ("&quot;" : String).data,
        x ≠ '<' ∧ x ≠ '>' ∧ x ≠ '"' ∧ x ≠ '\'' by decide) c hmem
    · exact (show ∀ x ∈ ("&#39;" : String).data,
        x ≠ '<' ∧ x ≠ '>' ∧ x ≠ '"' ∧ x ≠ '\'' by decide) c hmem
    · have hc0 : c = c0 := List.mem_singleton.1 hmem
      subst hc0
      simp only [beq_iff_eq] at h1 h2 h3 h4 h5
      exact ⟨h2, h3, h4, h5⟩

/-- Witness for C6's sanitization part on a value containing every
special character. -/
theorem c6_html_escaping_witness :
    'a' ≠ '<' ∧ 'a' ≠ '>' ∧ 'a' ≠ '"' ∧ 'a' ≠ '\'' :=
  c6_html_escaping.2 (.vStr "<a href=\"x\">&'") 'a' (by decide)

/-- Witness for C10: one kept row dated "n/a". -/
theorem c10_year_span_fallback_witness :
    queryTitle defaultParams (successPayloadOf
      ((queryOpenDatabase defaultParams (.resp 200 (.ok noFiniteYearPayload))).1)).rawRows =
      "**" ++ jsToString (JsVal.vStr "Canada") ++ " - " ++
      jsToString (JsVal.vStr "Population, total") ++
      " (" ++ toString (2018 : Int) ++ "-" ++ toString (2024 : Int) ++ ")**" :=
  (c10_year_span_fallback defaultParams (.resp 200 (.ok noFiniteYearPayload)) _
    rfl ⟨.vStr "n/a", .vNum 7, .vStr "Canada", .vStr "Population, total"⟩ [] rfl rfl).1

end WBStore
